import Mathlib

/-!
Shallow embedding of the PathMix library (src/index.js).

JavaScript strings are modelled as lists of characters (`Str`).  The
`node:path` POSIX functions that the source delegates to (`join`,
`normalize`, `dirname`, `resolve`) are modelled in namespace `NodePath`
after Node's posix implementation; `fileURLToPath` from `node:url` is
modelled for file URLs with an empty authority (`file:///...`): the scheme
prefix is stripped and percent escapes are decoded (multi-byte UTF-8
sequences in escapes are decoded bytewise, which is enough for the ASCII
paths the claims are about).  JavaScript `String.prototype.replace`
replacement-pattern escapes in the home directory value are not modelled;
the substitution is a plain prefix substitution.

The process-level inputs of the library (OS home directory, current
working directory, OS temp directory) and the result of the V8 stack
inspection performed by `PathMix.#getCallerFile` (the `getFileName()` of
the first stack frame above the public entry point, after
`Error.captureStackTrace(err, methodRef)` has removed the library's own
frames) are collected in an environment record `Env`.

Fallible operations return `Except JSError Str`: `JSError.error msg`
models a thrown `new Error(msg)` and `JSError.typeError` models the
`TypeError` thrown by `node:path` argument validation on non-string
segments.
-/

/-- A JavaScript string, as a list of characters. -/
abbrev Str := List Char

/-- Convert a Lean string literal to the character-list model. -/
def str (s : String) : Str := s.toList

/-- A JavaScript value, as far as the library distinguishes values:
strings versus everything else (`typeof segment !== 'string'`). -/
inductive JSVal where
  | str : Str → JSVal
  | num : Int → JSVal
  | boolean : Bool → JSVal
  | nullV : JSVal
  | undefined : JSVal
deriving DecidableEq

/-- Whether a JavaScript value is a string (`typeof v === 'string'`). -/
def JSVal.isString : JSVal → Bool
  | .str _ => true
  | _ => false

/-- An exception thrown by the embedded code: `new Error(message)` from
PathMix itself, or the `TypeError` raised by node:path string validation. -/
inductive JSError where
  | error : Str → JSError
  | typeError : JSError
deriving DecidableEq

instance {ε α : Type} [DecidableEq ε] [DecidableEq α] : DecidableEq (Except ε α) := fun
  | Except.error a, Except.error b => decidable_of_iff (a = b) (by simp)
  | Except.ok a, Except.ok b => decidable_of_iff (a = b) (by simp)
  | Except.error _, Except.ok _ => isFalse (by simp)
  | Except.ok _, Except.error _ => isFalse (by simp)

namespace NodePath

/-- A path is absolute when its first character is the separator
(`path.charCodeAt(0) === CHAR_FORWARD_SLASH`). -/
def isAbsolute (p : Str) : Bool := p.headD ' ' == '/'

/-- One step of Node's `normalizeString` segment resolution, phrased on the
stack of segments emitted so far (head = most recent segment):
empty and `.` segments are dropped; `..` pops the previous segment unless
there is none or it is itself `..`, in which case it is kept only when
`allowAboveRoot` holds; every other segment is pushed. -/
def normStack (allowAboveRoot : Bool) (acc : List Str) (seg : Str) : List Str :=
  if seg = [] ∨ seg = ['.'] then acc
  else if seg = ['.', '.'] then
    match acc with
    | [] => if allowAboveRoot then [seg] else []
    | t :: rest => if t = ['.', '.'] then (if allowAboveRoot then seg :: acc else acc) else rest
  else seg :: acc

/-- Node's `normalizeString(path, allowAboveRoot, '/', isPosixPathSeparator)`:
split on the separator, resolve `.` and `..` segments, join back. -/
def normalizeString (s : Str) (allowAboveRoot : Bool) : Str :=
  List.intercalate ['/'] (((s.splitOn '/').foldl (normStack allowAboveRoot) []).reverse)

/-- Node's `posix.normalize`. -/
def normalize (p : Str) : Str :=
  if p = [] then ['.']
  else
    let isAbs := isAbsolute p
    let trailingSeparator := p.getLast? = some '/'
    let res := normalizeString p (!isAbs)
    if res = [] then
      if isAbs then ['/'] else if trailingSeparator then ['.', '/'] else ['.']
    else
      let res2 := if trailingSeparator then res ++ ['/'] else res
      if isAbs then '/' :: res2 else res2

/-- Node's `posix.join` on string segments: drop empty segments, interleave
the separator, normalize; with nothing left the result is `.` . -/
def join (segments : List Str) : Str :=
  let parts := segments.filter (· ≠ [])
  if parts = [] then ['.'] else normalize (List.intercalate ['/'] parts)

/-- Check that every argument is a string (Node's `validateString` applied
to each `join` argument), extracting the string contents. -/
def asStrings : List JSVal → Option (List Str)
  | [] => some []
  | JSVal.str s :: rest => (asStrings rest).map (s :: ·)
  | _ => none

/-- Node's `posix.join` on JavaScript values: a non-string argument raises
`TypeError`. -/
def joinV (args : List JSVal) : Except JSError Str :=
  match asStrings args with
  | none => Except.error JSError.typeError
  | some ss => Except.ok (join ss)

/-- The accumulation loop of Node's `posix.resolve`, processing the
arguments from last to first (the input list is already reversed, with the
process working directory appended as the final entry): empty strings are
skipped, each path is prepended as `path + '/' + acc`, and the loop stops
at the first absolute path.  Each processed argument is validated as a
string; arguments left of the rightmost absolute path are never reached,
hence never validated. -/
def resolveJoin : List JSVal → Str → Except JSError (Str × Bool)
  | [], acc => Except.ok (acc, false)
  | v :: rest, acc =>
    match v with
    | JSVal.str p =>
        if p = [] then resolveJoin rest acc
        else
          let acc2 := p ++ '/' :: acc
          if isAbsolute p then Except.ok (acc2, true) else resolveJoin rest acc2
    | _ => Except.error JSError.typeError

/-- Node's `posix.resolve`, with the process working directory supplied
explicitly. -/
def resolveV (cwd : Str) (args : List JSVal) : Except JSError Str :=
  match resolveJoin (args.reverse ++ [JSVal.str cwd]) [] with
  | Except.error e => Except.error e
  | Except.ok pr =>
    let norm := normalizeString pr.1 (!pr.2)
    if pr.2 then Except.ok ('/' :: norm)
    else if norm = [] then Except.ok ['.'] else Except.ok norm

/-- Node's `posix.dirname`: scanning from the end and ignoring trailing
separators, cut just before the last separator preceding the basename; the
scan never treats index 0 as that separator; with no such separator the
result is `/` for rooted paths and `.` otherwise, and a rooted path whose
cut lands at index 1 yields `//`. -/
def dirname (p : Str) : Str :=
  if p = [] then ['.']
  else
    let hasRoot := isAbsolute p
    let afterSlashes := p.reverse.dropWhile (· == '/')
    let afterBase := afterSlashes.dropWhile (· != '/')
    if afterBase.length ≤ 1 then
      if hasRoot then ['/'] else ['.']
    else if hasRoot && afterBase.length == 2 then ['/', '/']
    else (afterBase.drop 1).reverse

/-- Value of a hexadecimal digit. -/
def hexVal (c : Char) : Option Nat :=
  if '0' ≤ c ∧ c ≤ '9' then some (c.toNat - '0'.toNat)
  else if 'a' ≤ c ∧ c ≤ 'f' then some (c.toNat - 'a'.toNat + 10)
  else if 'A' ≤ c ∧ c ≤ 'F' then some (c.toNat - 'A'.toNat + 10)
  else none

/-- Percent-escape decoding of a URL path component. -/
def percentDecode : Str → Str
  | [] => []
  | '%' :: a :: b :: rest =>
    match hexVal a, hexVal b with
    | some x, some y => Char.ofNat (16 * x + y) :: percentDecode rest
    | _, _ => '%' :: percentDecode (a :: b :: rest)
  | c :: rest => c :: percentDecode rest

/-- Node's `url.fileURLToPath` for a file URL with empty authority:
drop the 7-character `file://` scheme prefix and decode percent escapes. -/
def fileURLToPath (u : Str) : Str := percentDecode (u.drop 7)

end NodePath

/-- The process-level environment the library reads: `os.homedir()`,
`process.cwd()`, `os.tmpdir()`, and the raw `getFileName()` of the stack
frame of the immediate caller of the public entry point (what
`stack[0]?.getFileName()` yields after `Error.captureStackTrace` has
removed the library's own frames) — `none` when the runtime exposes no
frame or no file name for it. -/
structure Env where
  homedir : Str
  cwd : Str
  tmpdir : Str
  rawCallerFileName : Option Str
deriving DecidableEq

namespace PathMix

/-- PathMix's token `'file://'` test on a string. -/
def isFileUrlStr (s : Str) : Bool := (str "file://").isPrefixOf s

/-- PathMix's `#isFileUrl`: a string value starting with `file://`. -/
def isFileUrl (v : JSVal) : Bool :=
  match v with
  | JSVal.str s => isFileUrlStr s
  | _ => false

/-- PathMix's `#getCallerFile`: read the first remaining stack frame's file
name; a missing or empty name yields `null`; a `file://` name is converted
with `fileURLToPath`, any other name is returned as is. -/
def getCallerFile (env : Env) : Option Str :=
  match env.rawCallerFileName with
  | none => none
  | some fileName =>
    if fileName = [] then none
    else if isFileUrlStr fileName then some (NodePath.fileURLToPath fileName)
    else some fileName

/-- PathMix's `#expandTokens`: non-strings pass through; a leading `$HOME`
or `~` is replaced by the home directory (anchored prefix substitution). -/
def expandTokens (env : Env) (segment : JSVal) : JSVal :=
  match segment with
  | JSVal.str s =>
      if (str "$HOME").isPrefixOf s then JSVal.str (env.homedir ++ s.drop (str "$HOME").length)
      else if ['~'].isPrefixOf s then JSVal.str (env.homedir ++ s.drop 1)
      else segment
  | _ => segment

/-- PathMix's `home(...segments)`. -/
def home (env : Env) (segments : List JSVal) : Except JSError Str :=
  if segments = [] then Except.ok env.homedir
  else NodePath.joinV (JSVal.str env.homedir :: segments)

/-- PathMix's `cwd(...segments)`. -/
def cwd (env : Env) (segments : List JSVal) : Except JSError Str :=
  if segments = [] then Except.ok env.cwd
  else NodePath.joinV (JSVal.str env.cwd :: segments)

/-- PathMix's `tmp(...segments)`. -/
def tmp (env : Env) (segments : List JSVal) : Except JSError Str :=
  if segments = [] then Except.ok env.tmpdir
  else NodePath.joinV (JSVal.str env.tmpdir :: segments)

/-- The caller-detection arm of PathMix's `dir(...args)` (the `else`
branch, with `segments = args`). -/
def dirAuto (env : Env) (args : List JSVal) : Except JSError Str :=
  match getCallerFile env with
  | none => Except.error (JSError.error
      (str "PathMix.dir(): could not detect caller file. Pass import.meta.url explicitly."))
  | some callerFile =>
      let base := NodePath.dirname callerFile
      if args = [] then Except.ok base else NodePath.joinV (JSVal.str base :: args)

/-- PathMix's `dir(...args)`. -/
def dir (env : Env) (args : List JSVal) : Except JSError Str :=
  match args with
  | JSVal.str s :: rest =>
      if isFileUrlStr s then
        let base := NodePath.dirname (NodePath.fileURLToPath s)
        if rest = [] then Except.ok base else NodePath.joinV (JSVal.str base :: rest)
      else dirAuto env args
  | _ => dirAuto env args

/-- The caller-detection arm of PathMix's `file(...args)`. -/
def fileAuto (env : Env) : Except JSError Str :=
  match getCallerFile env with
  | none => Except.error (JSError.error
      (str "PathMix.file(): could not detect caller file. Pass import.meta.url explicitly."))
  | some callerFile => Except.ok callerFile

/-- PathMix's `file(...args)`. -/
def file (env : Env) (args : List JSVal) : Except JSError Str :=
  match args with
  | JSVal.str s :: _ =>
      if isFileUrlStr s then Except.ok (NodePath.fileURLToPath s)
      else fileAuto env
  | _ => fileAuto env

/-- PathMix's `resolve(...segments)`: expand home tokens in every segment,
then delegate to `path.resolve`. -/
def resolve (env : Env) (segments : List JSVal) : Except JSError Str :=
  let expanded := segments.map (expandTokens env)
  NodePath.resolveV env.cwd expanded

/-- The caller-detection arm of PathMix's `__dirname(...args)`. -/
def dunderDirnameAuto (env : Env) : Except JSError Str :=
  match getCallerFile env with
  | none => Except.error (JSError.error
      (str "PathMix.__dirname(): could not detect caller file. Pass import.meta.url explicitly."))
  | some callerFile => Except.ok (NodePath.dirname callerFile)

/-- PathMix's `__dirname(...args)`: with a leading file URL, the directory
of its decoded path (further arguments are ignored); otherwise the
directory of the detected caller file. -/
def __dirname (env : Env) (args : List JSVal) : Except JSError Str :=
  match args with
  | JSVal.str s :: _ =>
      if isFileUrlStr s then Except.ok (NodePath.dirname (NodePath.fileURLToPath s))
      else dunderDirnameAuto env
  | _ => dunderDirnameAuto env

/-- The caller-detection arm of PathMix's `__filename(...args)`. -/
def dunderFilenameAuto (env : Env) : Except JSError Str :=
  match getCallerFile env with
  | none => Except.error (JSError.error
      (str "PathMix.__filename(): could not detect caller file. Pass import.meta.url explicitly."))
  | some callerFile => Except.ok callerFile

/-- PathMix's `__filename(...args)`. -/
def __filename (env : Env) (args : List JSVal) : Except JSError Str :=
  match args with
  | JSVal.str s :: _ =>
      if isFileUrlStr s then Except.ok (NodePath.fileURLToPath s)
      else dunderFilenameAuto env
  | _ => dunderFilenameAuto env

/-- PathMix's re-exported `join(...segments)`. -/
def join (segments : List JSVal) : Except JSError Str := NodePath.joinV segments

end PathMix

/-- Lift a list of strings to JavaScript string values. -/
def strs (l : List Str) : List JSVal := l.map JSVal.str

/-- A sample environment: a CommonJS caller whose stack frame reports a
plain absolute path. -/
def envA : Env := ⟨str "/home/user", str "/work", str "/tmp", some (str "/app/main.js")⟩

/-- A sample environment in which stack introspection yields nothing. -/
def envNone : Env := ⟨str "/home/user", str "/work", str "/tmp", none⟩

/-- A sample environment: an ES-module caller whose stack frame reports a
file URL. -/
def envEsm : Env := ⟨str "/home/user", str "/work", str "/tmp", some (str "file:///app/main.js")⟩

/-- A sample environment matching the spec's end-to-end scenario: the
calling file is `/project/src/utils.js`. -/
def envScenario : Env :=
  ⟨str "/home/user", str "/work", str "/tmp", some (str "/project/src/utils.js")⟩

/-- An operation result is a well-formed absolute path, unless the
operation failed: whenever it returns a value, that value is a nonempty
absolute path string. -/
def absOk (r : Except JSError Str) : Prop :=
  ∀ p, r = Except.ok p → NodePath.isAbsolute p = true ∧ p ≠ []

section ModelSanity

/-- Sanity: join of an absolute base with segments. -/
theorem sanity_join_abs : NodePath.join [str "/project/src", str "data", str "seed.json"]
    = str "/project/src/data/seed.json" := by decide

/-- Sanity: directory of a file path. -/
theorem sanity_dirname : NodePath.dirname (str "/project/src/utils.js") = str "/project/src" := by
  decide

/-- Sanity: file-URL decoding. -/
theorem sanity_fileURLToPath : NodePath.fileURLToPath (str "file:///a/b.js") = str "/a/b.js" := by
  decide

/-- Sanity: join of relative segments, as in the spec's example. -/
theorem sanity_join_rel : NodePath.join [str "a", str "b", str "c"] = str "a/b/c" := by decide

/-- Sanity: normalization resolves dot segments and doubled separators. -/
theorem sanity_normalize : NodePath.normalize (str "/a/./b/../c//") = str "/a/c/" := by decide

/-- Sanity: tilde expansion inside `resolve`, as in the demo scripts. -/
theorem sanity_resolve_tilde : PathMix.resolve ⟨str "/home/u", str "/cwd", str "/tmp", none⟩
    [JSVal.str (str "~/.ssh/config")] = Except.ok (str "/home/u/.ssh/config") := by decide

/-- Sanity: `$HOME` expansion inside `resolve`, as in the demo scripts. -/
theorem sanity_resolve_home : PathMix.resolve ⟨str "/home/u", str "/cwd", str "/tmp", none⟩
    [JSVal.str (str "$HOME/.config")] = Except.ok (str "/home/u/.config") := by decide

end ModelSanity

section Lemmas

/-- The head of an appended list with a nonempty left part. -/
theorem headD_append_left (a l : Str) (d : Char) (h : a ≠ []) :
    (a ++ l).headD d = a.headD d := by
  cases a with
  | nil => exact absurd rfl h
  | cons x xs => rfl

/-- The head of a list extended on the left, default-insensitive form. -/
theorem headD_append_cons (l : Str) (c : Char) (xs : Str) (d : Char) :
    (l ++ c :: xs).headD d = l.headD c := by
  cases l <;> rfl

/-- A successful prefix test pins down the head character. -/
theorem isPrefixOf_head (a : Char) (l s : Str) (d : Char)
    (h : (a :: l).isPrefixOf s = true) : s.headD d = a := by
  cases s with
  | nil => simp [List.isPrefixOf] at h
  | cons b t =>
    simp only [List.isPrefixOf, Bool.and_eq_true, beq_iff_eq] at h
    simp [h.1]

/-- A prefix of a list shares its head. -/
theorem prefix_headD (l p : Str) (d : Char) (hl : l <+: p) (hne : l ≠ []) :
    p.headD d = l.headD d := by
  obtain ⟨t, ht⟩ := hl
  cases l with
  | nil => exact absurd rfl hne
  | cons x xs => rw [← ht]; rfl

/-- An absolute path is nonempty. -/
theorem isAbsolute_ne_nil (p : Str) (h : NodePath.isAbsolute p = true) : p ≠ [] := by
  intro hp
  rw [hp] at h
  simp [NodePath.isAbsolute] at h

/-- A string with the `file://` prefix is nonempty. -/
theorem isFileUrlStr_ne_nil (s : Str) (h : PathMix.isFileUrlStr s = true) : s ≠ [] := by
  intro hs
  rw [hs] at h
  simp [PathMix.isFileUrlStr, str, List.isPrefixOf] at h

/-- Reading back string values from a lifted string list always succeeds. -/
theorem asStrings_strs (l : List Str) : NodePath.asStrings (strs l) = some l := by
  induction l with
  | nil => rfl
  | cons x xs ih => simp [strs, NodePath.asStrings] at ih ⊢; simp [ih]

/-- Joining a lifted string list succeeds and delegates to `join`. -/
theorem joinV_strs (b : Str) (S : List Str) :
    NodePath.joinV (JSVal.str b :: strs S) = Except.ok (NodePath.join (b :: S)) := by
  simp [NodePath.joinV, NodePath.asStrings, asStrings_strs]

/-- Caller detection for a frame reporting a plain nonempty path. -/
theorem getCallerFile_plain (env : Env) (f : Str) (h : env.rawCallerFileName = some f)
    (h1 : f ≠ []) (h2 : PathMix.isFileUrlStr f = false) :
    PathMix.getCallerFile env = some f := by
  simp [PathMix.getCallerFile, h, h1, h2]

/-- Caller detection for a frame reporting a file URL. -/
theorem getCallerFile_url (env : Env) (f : Str) (h : env.rawCallerFileName = some f)
    (hu : PathMix.isFileUrlStr f = true) :
    PathMix.getCallerFile env = some (NodePath.fileURLToPath f) := by
  have h1 : f ≠ [] := isFileUrlStr_ne_nil f hu
  simp [PathMix.getCallerFile, h, h1, hu]

/-- Expansion of a segment whose first five characters are `$HOME`. -/
theorem expandTokens_dollarHome (env : Env) (rest : Str) :
    PathMix.expandTokens env (JSVal.str (str "$HOME" ++ rest))
      = JSVal.str (env.homedir ++ rest) := by
  have hp : (str "$HOME").isPrefixOf (str "$HOME" ++ rest) = true :=
    List.isPrefixOf_iff_prefix.mpr (List.prefix_append _ _)
  simp [PathMix.expandTokens, hp, List.drop_left]

/-- Expansion of a segment starting with a tilde. -/
theorem expandTokens_tilde (env : Env) (rest : Str) :
    PathMix.expandTokens env (JSVal.str ('~' :: rest)) = JSVal.str (env.homedir ++ rest) := by
  have h1 : (str "$HOME").isPrefixOf ('~' :: rest) = false := by
    rw [show str "$HOME" = '$' :: str "HOME" by decide]
    simp [List.isPrefixOf]
  have h2 : (['~'] : Str).isPrefixOf ('~' :: rest) = true := by
    simp [List.isPrefixOf]
  simp [PathMix.expandTokens, h1, h2]

/-- A segment carrying neither token as its leading characters is left
unchanged by expansion. -/
theorem expandTokens_noToken (env : Env) (s : Str)
    (h1 : (str "$HOME").isPrefixOf s = false) (h2 : (['~'] : Str).isPrefixOf s = false) :
    PathMix.expandTokens env (JSVal.str s) = JSVal.str s := by
  simp [PathMix.expandTokens, h1, h2]

end Lemmas

/-- C1: for every explicit `file://` locator string, `PathMix.file` and
`PathMix.__filename` return exactly the decoded plain path of the locator,
for every environment — in particular the result does not depend on the
stack-introspection oracle, so no stack inspection takes place. -/
theorem C1_fileOf_explicit (env : Env) (s : Str) (rest : List JSVal)
    (h : PathMix.isFileUrlStr s = true) :
    PathMix.file env (JSVal.str s :: rest) = Except.ok (NodePath.fileURLToPath s) ∧
    PathMix.__filename env (JSVal.str s :: rest) = Except.ok (NodePath.fileURLToPath s) := by
  constructor <;> simp [PathMix.file, PathMix.__filename, h]

/-- C1, witness: the property at a concrete locator and environment. -/
theorem C1_fileOf_explicit_witness :
    PathMix.isFileUrlStr (str "file:///project/src/utils.js") = true ∧
    (PathMix.file envA [JSVal.str (str "file:///project/src/utils.js")]
        = Except.ok (NodePath.fileURLToPath (str "file:///project/src/utils.js")) ∧
      PathMix.__filename envA [JSVal.str (str "file:///project/src/utils.js")]
        = Except.ok (NodePath.fileURLToPath (str "file:///project/src/utils.js"))) :=
  ⟨by decide, C1_fileOf_explicit envA (str "file:///project/src/utils.js") [] (by decide)⟩

/-- C9: a first argument that is not a string starting with `file://`
(a plain path, a number, `null`, …) is silently ignored by `PathMix.file`
and `PathMix.__filename`: the call behaves exactly like a call with no
arguments, falling back to stack introspection, and no error is raised for
the unrecognized argument. -/
theorem C9_plain_arg_falls_back (env : Env) (v : JSVal) (rest : List JSVal)
    (h : PathMix.isFileUrl v = false) :
    PathMix.file env (v :: rest) = PathMix.file env [] ∧
    PathMix.__filename env (v :: rest) = PathMix.__filename env [] := by
  cases v <;> simp_all [PathMix.file, PathMix.__filename, PathMix.isFileUrl]

/-- C9, witness: a plain absolute path as first argument at a concrete
environment; the result is the caller-detected file, not the argument. -/
theorem C9_plain_arg_falls_back_witness :
    PathMix.isFileUrl (JSVal.str (str "/project/src/utils.js")) = false ∧
    (PathMix.file envA [JSVal.str (str "/project/src/utils.js")] = PathMix.file envA [] ∧
      PathMix.__filename envA [JSVal.str (str "/project/src/utils.js")]
        = PathMix.__filename envA []) :=
  ⟨by decide, C9_plain_arg_falls_back envA (JSVal.str (str "/project/src/utils.js")) [] (by decide)⟩

/-- C10: token expansion is a raw character-prefix match: a segment whose
first five characters are `$HOME` has exactly those five characters
replaced by the home directory (`$HOMEWORK` becomes the home directory
followed by `WORK`), and a segment starting with `~` followed by anything
has the `~` replaced by the home directory (`~alice` becomes the home
directory followed by `alice`). -/
theorem C10_token_raw_match (env : Env) (rest : Str) :
    PathMix.expandTokens env (JSVal.str (str "$HOME" ++ rest)) = JSVal.str (env.homedir ++ rest) ∧
    PathMix.expandTokens env (JSVal.str ('~' :: rest)) = JSVal.str (env.homedir ++ rest) :=
  ⟨expandTokens_dollarHome env rest, expandTokens_tilde env rest⟩

/-- C8: a non-string value passes through token expansion unchanged, and
in `PathMix.resolve` the expansion stage touches only string segments: a
non-string segment reaches `path.resolve` exactly as it was passed. -/
theorem C8_nonstring_passthrough (env : Env) (v : JSVal) (h : v.isString = false) :
    PathMix.expandTokens env v = v ∧
    ∀ pre post : List JSVal,
      PathMix.resolve env (pre ++ v :: post)
        = NodePath.resolveV env.cwd
            (pre.map (PathMix.expandTokens env) ++ v :: post.map (PathMix.expandTokens env)) := by
  have h1 : PathMix.expandTokens env v = v := by
    cases v <;> simp_all [PathMix.expandTokens, JSVal.isString]
  refine ⟨h1, fun pre post => ?_⟩
  simp [PathMix.resolve, h1]

/-- C8, witness: the property at a number value and a concrete
environment. -/
theorem C8_nonstring_passthrough_witness :
    JSVal.isString (JSVal.num 42) = false ∧
    (PathMix.expandTokens envA (JSVal.num 42) = JSVal.num 42 ∧
      ∀ pre post : List JSVal,
        PathMix.resolve envA (pre ++ JSVal.num 42 :: post)
          = NodePath.resolveV envA.cwd
              (pre.map (PathMix.expandTokens envA) ++
                JSVal.num 42 :: post.map (PathMix.expandTokens envA))) :=
  ⟨by decide, C8_nonstring_passthrough envA (JSVal.num 42) (by decide)⟩

/-- C3: when a location-dependent operation is invoked with no explicit
file-URL reference and stack introspection yields no usable location,
`dir`, `file`, `__dirname` and `__filename` each fail immediately with an
error whose message names the failing operation and instructs the caller
to pass `import.meta.url`; none of them returns a path. -/
theorem C3_caller_resolution_error (env : Env) (args : List JSVal)
    (hc : PathMix.getCallerFile env = none)
    (hargs : ∀ v, args.head? = some v → PathMix.isFileUrl v = false) :
    PathMix.dir env args = Except.error (JSError.error
        (str "PathMix.dir(): could not detect caller file. Pass import.meta.url explicitly.")) ∧
    PathMix.file env args = Except.error (JSError.error
        (str "PathMix.file(): could not detect caller file. Pass import.meta.url explicitly.")) ∧
    PathMix.__dirname env args = Except.error (JSError.error
        (str "PathMix.__dirname(): could not detect caller file. Pass import.meta.url explicitly.")) ∧
    PathMix.__filename env args = Except.error (JSError.error
        (str "PathMix.__filename(): could not detect caller file. Pass import.meta.url explicitly.")) := by
  match args with
  | [] =>
    simp [PathMix.dir, PathMix.file, PathMix.__dirname, PathMix.__filename,
      PathMix.dirAuto, PathMix.fileAuto, PathMix.dunderDirnameAuto,
      PathMix.dunderFilenameAuto, hc]
  | v :: rest =>
    have hv := hargs v rfl
    cases v <;> simp_all [PathMix.dir, PathMix.file, PathMix.__dirname, PathMix.__filename,
      PathMix.dirAuto, PathMix.fileAuto, PathMix.dunderDirnameAuto,
      PathMix.dunderFilenameAuto, PathMix.isFileUrl]

/-- C3, witness: the errors at a concrete environment with a defeated
stack and an argument-free call. -/
theorem C3_caller_resolution_error_witness :
    PathMix.getCallerFile envNone = none ∧
    (PathMix.dir envNone [] = Except.error (JSError.error
        (str "PathMix.dir(): could not detect caller file. Pass import.meta.url explicitly.")) ∧
      PathMix.file envNone [] = Except.error (JSError.error
        (str "PathMix.file(): could not detect caller file. Pass import.meta.url explicitly.")) ∧
      PathMix.__dirname envNone [] = Except.error (JSError.error
        (str "PathMix.__dirname(): could not detect caller file. Pass import.meta.url explicitly.")) ∧
      PathMix.__filename envNone [] = Except.error (JSError.error
        (str "PathMix.__filename(): could not detect caller file. Pass import.meta.url explicitly."))) :=
  ⟨by decide, C3_caller_resolution_error envNone [] (by decide) (fun v h => nomatch h)⟩

/-- C7: the explicit-reference path and the auto-detection path of `dir`
agree: calling `dir` with the caller's own file URL gives the same result
as calling `dir()` from that source location, whether the caller's stack
frame reports the file URL itself (ES module) or its decoded plain path
(CommonJS). -/
theorem C7_auto_explicit_agree (env : Env) (u : Str) (hu : PathMix.isFileUrlStr u = true) :
    (env.rawCallerFileName = some u →
      PathMix.dir env [JSVal.str u] = PathMix.dir env []) ∧
    (NodePath.fileURLToPath u ≠ [] →
      PathMix.isFileUrlStr (NodePath.fileURLToPath u) = false →
      env.rawCallerFileName = some (NodePath.fileURLToPath u) →
      PathMix.dir env [JSVal.str u] = PathMix.dir env []) := by
  constructor
  · intro h
    have hcf := getCallerFile_url env u h hu
    simp [PathMix.dir, PathMix.dirAuto, hu, hcf]
  · intro hp1 hp2 h
    have hcf := getCallerFile_plain env _ h hp1 hp2
    simp [PathMix.dir, PathMix.dirAuto, hu, hcf]

/-- C7, witness: agreement at a concrete ES-module environment. -/
theorem C7_auto_explicit_agree_witness :
    PathMix.isFileUrlStr (str "file:///app/main.js") = true ∧
    envEsm.rawCallerFileName = some (str "file:///app/main.js") ∧
    PathMix.dir envEsm [JSVal.str (str "file:///app/main.js")] = PathMix.dir envEsm [] :=
  ⟨by decide, rfl,
    (C7_auto_explicit_agree envEsm (str "file:///app/main.js") (by decide)).1 rfl⟩

/-- C4: both home-shorthand forms are equivalent to spelling the home
directory out — `resolve('~/X')` and `resolve('$HOME/X')` both equal
`resolve(home_dir + '/X')` — and a segment in which neither token appears
as the leading characters is left unexpanded.  The home directory is
assumed not to start with a token character itself (every real OS home
path is absolute). -/
theorem C4_home_shorthand_equiv (env : Env) (X : Str)
    (h1 : env.homedir.headD '/' ≠ '~') (h2 : env.homedir.headD '/' ≠ '$') :
    PathMix.resolve env [JSVal.str ('~' :: '/' :: X)]
      = PathMix.resolve env [JSVal.str (env.homedir ++ '/' :: X)] ∧
    PathMix.resolve env [JSVal.str (str "$HOME" ++ '/' :: X)]
      = PathMix.resolve env [JSVal.str (env.homedir ++ '/' :: X)] ∧
    ∀ s : Str, (str "$HOME").isPrefixOf s = false → (['~'] : Str).isPrefixOf s = false →
      PathMix.expandTokens env (JSVal.str s) = JSVal.str s := by
  have ha : (str "$HOME").isPrefixOf (env.homedir ++ '/' :: X) = false := by
    by_contra hc
    rw [Bool.not_eq_false] at hc
    rw [show str "$HOME" = '$' :: str "HOME" by decide] at hc
    have hd := isPrefixOf_head '$' (str "HOME") _ '/' hc
    rw [headD_append_cons] at hd
    exact h2 hd
  have hb : (['~'] : Str).isPrefixOf (env.homedir ++ '/' :: X) = false := by
    by_contra hc
    rw [Bool.not_eq_false] at hc
    have hd := isPrefixOf_head '~' [] _ '/' hc
    rw [headD_append_cons] at hd
    exact h1 hd
  have e1 := expandTokens_tilde env ('/' :: X)
  have e2 := expandTokens_dollarHome env ('/' :: X)
  have e3 := expandTokens_noToken env _ ha hb
  refine ⟨?_, ?_, fun s hs1 hs2 => expandTokens_noToken env s hs1 hs2⟩
  · simp [PathMix.resolve, e1, e3]
  · simp [PathMix.resolve, e2, e3]

/-- C4, witness: the equivalences at a concrete environment and suffix. -/
theorem C4_home_shorthand_equiv_witness :
    envA.homedir.headD '/' ≠ '~' ∧ envA.homedir.headD '/' ≠ '$' ∧
    (PathMix.resolve envA [JSVal.str ('~' :: '/' :: str ".ssh")]
        = PathMix.resolve envA [JSVal.str (envA.homedir ++ '/' :: str ".ssh")] ∧
      PathMix.resolve envA [JSVal.str (str "$HOME" ++ '/' :: str ".ssh")]
        = PathMix.resolve envA [JSVal.str (envA.homedir ++ '/' :: str ".ssh")] ∧
      ∀ s : Str, (str "$HOME").isPrefixOf s = false → (['~'] : Str).isPrefixOf s = false →
        PathMix.expandTokens envA (JSVal.str s) = JSVal.str s) :=
  ⟨by decide, by decide, C4_home_shorthand_equiv envA (str ".ssh") (by decide) (by decide)⟩

/-- C5: `home(*S)` is the home directory joined with `S` under Node's join
semantics, and `home()` is the bare home directory; likewise `cwd` against
the working directory and `tmp` against the temp directory. -/
theorem C5_base_dirs_join (env : Env) (S : List Str) (hS : S ≠ []) :
    PathMix.home env [] = Except.ok env.homedir ∧
    PathMix.home env (strs S) = Except.ok (NodePath.join (env.homedir :: S)) ∧
    PathMix.cwd env [] = Except.ok env.cwd ∧
    PathMix.cwd env (strs S) = Except.ok (NodePath.join (env.cwd :: S)) ∧
    PathMix.tmp env [] = Except.ok env.tmpdir ∧
    PathMix.tmp env (strs S) = Except.ok (NodePath.join (env.tmpdir :: S)) := by
  have hne : strs S ≠ [] := by
    cases S with
    | nil => exact absurd rfl hS
    | cons x xs => simp [strs]
  simp [PathMix.home, PathMix.cwd, PathMix.tmp, hne, joinV_strs]

/-- C5, witness: the join property at a concrete environment and segment
list. -/
theorem C5_base_dirs_join_witness :
    ([str ".ssh"] : List Str) ≠ [] ∧
    (PathMix.home envA [] = Except.ok envA.homedir ∧
      PathMix.home envA (strs [str ".ssh"])
        = Except.ok (NodePath.join (envA.homedir :: [str ".ssh"])) ∧
      PathMix.cwd envA [] = Except.ok envA.cwd ∧
      PathMix.cwd envA (strs [str ".ssh"])
        = Except.ok (NodePath.join (envA.cwd :: [str ".ssh"])) ∧
      PathMix.tmp envA [] = Except.ok envA.tmpdir ∧
      PathMix.tmp envA (strs [str ".ssh"])
        = Except.ok (NodePath.join (envA.tmpdir :: [str ".ssh"]))) :=
  ⟨by decide, C5_base_dirs_join envA [str ".ssh"] (by decide)⟩

/-- C2, counterexample: `__dirname` with an explicit file URL ignores the
extra segments instead of joining them — the claim's joined result differs
from what the code returns. -/
theorem C2_counterexample :
    PathMix.__dirname envA
        [JSVal.str (str "file:///project/src/utils.js"), JSVal.str (str "data")]
      = Except.ok (str "/project/src") ∧
    NodePath.join
        [NodePath.dirname (NodePath.fileURLToPath (str "file:///project/src/utils.js")),
          str "data"]
      = str "/project/src/data" ∧
    (str "/project/src" : Str) ≠ str "/project/src/data" := by decide

/-- C2, amended: `dir(ref, *S)` joins `S` onto the containing directory of
the decoded locator (bare directory when `S` is empty), and the spec's
end-to-end scenario holds; `__dirname(ref, *S)`, however, always returns
the bare containing directory, ignoring extra segments. -/
theorem C2_directoryOf_explicit (env : Env) (s : Str) (S : List Str)
    (hs : PathMix.isFileUrlStr s = true) :
    PathMix.dir env [JSVal.str s]
        = Except.ok (NodePath.dirname (NodePath.fileURLToPath s)) ∧
    (S ≠ [] → PathMix.dir env (JSVal.str s :: strs S)
        = Except.ok (NodePath.join (NodePath.dirname (NodePath.fileURLToPath s) :: S))) ∧
    PathMix.__dirname env (JSVal.str s :: strs S)
        = Except.ok (NodePath.dirname (NodePath.fileURLToPath s)) ∧
    (env.rawCallerFileName = some (str "/project/src/utils.js") →
      PathMix.dir env (strs [str "data", str "seed.json"])
        = Except.ok (str "/project/src/data/seed.json")) := by
  refine ⟨?_, ?_, ?_, ?_⟩
  · simp [PathMix.dir, hs]
  · intro hS
    have hne : strs S ≠ [] := by
      cases S with
      | nil => exact absurd rfl hS
      | cons x xs => simp [strs]
    simp [PathMix.dir, hs, hne, joinV_strs]
  · simp [PathMix.__dirname, hs]
  · intro h
    have hcf := getCallerFile_plain env _ h (by decide) (by decide)
    have hd : PathMix.isFileUrlStr (str "data") = false := by decide
    simp [PathMix.dir, strs, hd, PathMix.dirAuto, hcf]
    decide

/-- C2, witness: the amended behaviour at the scenario environment with a
nonempty segment list. -/
theorem C2_directoryOf_explicit_witness :
    PathMix.isFileUrlStr (str "file:///project/src/utils.js") = true ∧
    (PathMix.dir envScenario [JSVal.str (str "file:///project/src/utils.js")]
        = Except.ok (NodePath.dirname (NodePath.fileURLToPath (str "file:///project/src/utils.js"))) ∧
      (([str "data"] : List Str) ≠ [] →
        PathMix.dir envScenario (JSVal.str (str "file:///project/src/utils.js") :: strs [str "data"])
          = Except.ok (NodePath.join
              (NodePath.dirname (NodePath.fileURLToPath (str "file:///project/src/utils.js"))
                :: [str "data"]))) ∧
      PathMix.__dirname envScenario (JSVal.str (str "file:///project/src/utils.js") :: strs [str "data"])
        = Except.ok (NodePath.dirname (NodePath.fileURLToPath (str "file:///project/src/utils.js"))) ∧
      (envScenario.rawCallerFileName = some (str "/project/src/utils.js") →
        PathMix.dir envScenario (strs [str "data", str "seed.json"])
          = Except.ok (str "/project/src/data/seed.json"))) :=
  ⟨by decide,
    C2_directoryOf_explicit envScenario (str "file:///project/src/utils.js") [str "data"]
      (by decide)⟩

section AbsoluteLemmas

/-- A path starting with the separator is absolute. -/
theorem isAbsolute_cons_slash (l : Str) : NodePath.isAbsolute ('/' :: l) = true := rfl

/-- Unfolding of the absoluteness test. -/
theorem isAbsolute_headD (p : Str) : NodePath.isAbsolute p = (p.headD ' ' == '/') := rfl

/-- Normalization keeps an absolute path absolute and nonempty. -/
theorem normalize_abs (p : Str) (h : NodePath.isAbsolute p = true) :
    NodePath.isAbsolute (NodePath.normalize p) = true ∧ NodePath.normalize p ≠ [] := by
  have hp : p ≠ [] := isAbsolute_ne_nil p h
  by_cases hres : NodePath.normalizeString p false = [] <;>
    by_cases htr : p.getLast? = some '/' <;>
      simp [NodePath.normalize, hp, h, hres, htr, isAbsolute_cons_slash]

/-- The head of an intercalation starting with a nonempty part. -/
theorem intercalate_headD (b : Str) (r : List Str) (hb : b ≠ []) :
    (List.intercalate ['/'] (b :: r)).headD ' ' = b.headD ' ' := by
  cases r with
  | nil => simp [List.intercalate]
  | cons y ys =>
    simp only [List.intercalate, List.intersperse_cons₂, List.flatten_cons]
    rw [headD_append_left _ _ _ hb]

/-- Joining onto an absolute first segment yields an absolute nonempty
path. -/
theorem join_abs (b : Str) (ss : List Str) (h : NodePath.isAbsolute b = true) :
    NodePath.isAbsolute (NodePath.join (b :: ss)) = true ∧ NodePath.join (b :: ss) ≠ [] := by
  have hb : b ≠ [] := isAbsolute_ne_nil b h
  have hfil : (b :: ss).filter (· ≠ []) = b :: ss.filter (· ≠ []) := by
    simp [List.filter_cons, hb]
  have habs : NodePath.isAbsolute (List.intercalate ['/'] (b :: ss.filter (· ≠ []))) = true := by
    rw [isAbsolute_headD, intercalate_headD _ _ hb]
    rw [isAbsolute_headD] at h
    exact h
  have hn := normalize_abs _ habs
  have hparts : ¬((b :: ss).filter (· ≠ []) = []) := by
    rw [hfil]
    exact List.cons_ne_nil _ _
  simp only [NodePath.join]
  rw [if_neg hparts, hfil]
  exact hn

/-- The directory of an absolute path is absolute and nonempty. -/
theorem dirname_abs (p : Str) (h : NodePath.isAbsolute p = true) :
    NodePath.isAbsolute (NodePath.dirname p) = true ∧ NodePath.dirname p ≠ [] := by
  have hp : p ≠ [] := isAbsolute_ne_nil p h
  by_cases h1 : ((p.reverse.dropWhile (· == '/')).dropWhile (· != '/')).length ≤ 1
  · simp [NodePath.dirname, hp, h, h1, isAbsolute_cons_slash]
  · by_cases h2 : ((p.reverse.dropWhile (· == '/')).dropWhile (· != '/')).length = 2
    · simp [NodePath.dirname, hp, h, h1, h2, isAbsolute_cons_slash]
    · have hEq : NodePath.dirname p
          = (((p.reverse.dropWhile (· == '/')).dropWhile (· != '/')).drop 1).reverse := by
        simp [NodePath.dirname, hp, h, h1, h2]
      have hsuf : ((p.reverse.dropWhile (· == '/')).dropWhile (· != '/')).drop 1 <:+ p.reverse :=
        (List.drop_suffix 1 _).trans ((List.dropWhile_suffix _).trans (List.dropWhile_suffix _))
      have hpre : (((p.reverse.dropWhile (· == '/')).dropWhile (· != '/')).drop 1).reverse <+: p := by
        have h3 := List.reverse_prefix.mpr hsuf
        rwa [List.reverse_reverse] at h3
      have hne2 : (((p.reverse.dropWhile (· == '/')).dropWhile (· != '/')).drop 1).reverse ≠ [] := by
        intro hnil
        have hlen := congrArg List.length hnil
        simp [List.length_reverse, List.length_drop] at hlen
        omega
      rw [hEq]
      refine ⟨?_, hne2⟩
      rw [isAbsolute_headD]
      have hh := prefix_headD _ _ ' ' hpre hne2
      rw [← hh]
      rw [isAbsolute_headD] at h
      exact h

/-- The accumulation loop of `resolve` reports an absolute result whenever
the final entry (the working directory) is absolute. -/
theorem resolveJoin_absEnd (c : Str) (hc : NodePath.isAbsolute c = true) :
    ∀ (l : List JSVal) (acc : Str) (pr : Str × Bool),
      NodePath.resolveJoin (l ++ [JSVal.str c]) acc = Except.ok pr → pr.2 = true := by
  have hcne : c ≠ [] := isAbsolute_ne_nil c hc
  intro l
  induction l with
  | nil =>
    intro acc pr hpr
    simp [NodePath.resolveJoin, hcne, hc] at hpr
    rw [← hpr]
  | cons v rest ih =>
    intro acc pr hpr
    cases v with
    | str q =>
      by_cases hqe : q = []
      · rw [List.cons_append] at hpr
        simp only [NodePath.resolveJoin, hqe, if_pos rfl] at hpr
        exact ih _ _ hpr
      · by_cases hqa : NodePath.isAbsolute q = true
        · rw [List.cons_append] at hpr
          simp [NodePath.resolveJoin, hqe, hqa] at hpr
          rw [← hpr]
        · rw [List.cons_append] at hpr
          simp [NodePath.resolveJoin, hqe, hqa] at hpr
          exact ih _ _ hpr
    | num n => simp [NodePath.resolveJoin] at hpr
    | boolean b => simp [NodePath.resolveJoin] at hpr
    | nullV => simp [NodePath.resolveJoin] at hpr
    | undefined => simp [NodePath.resolveJoin] at hpr

/-- With an absolute working directory, `resolve` only ever returns
absolute nonempty paths. -/
theorem resolveV_abs (c : Str) (hc : NodePath.isAbsolute c = true) (args : List JSVal) :
    absOk (NodePath.resolveV c args) := by
  intro p hp
  rw [NodePath.resolveV] at hp
  cases hrj : NodePath.resolveJoin (args.reverse ++ [JSVal.str c]) [] with
  | error e => rw [hrj] at hp; cases hp
  | ok pr =>
    have h2 := resolveJoin_absEnd c hc args.reverse [] pr hrj
    rw [hrj] at hp
    simp [h2] at hp
    rw [← hp]
    exact ⟨isAbsolute_cons_slash _, List.cons_ne_nil _ _⟩

/-- Joining JavaScript values onto an absolute first segment only ever
returns absolute nonempty paths. -/
theorem joinV_abs (b : Str) (hb : NodePath.isAbsolute b = true) (rest : List JSVal) :
    absOk (NodePath.joinV (JSVal.str b :: rest)) := by
  intro p hp
  rw [NodePath.joinV] at hp
  cases has : NodePath.asStrings (JSVal.str b :: rest) with
  | none => rw [has] at hp; cases hp
  | some ss =>
    rw [has] at hp
    have hss : ∃ t, ss = b :: t := by
      rw [NodePath.asStrings] at has
      cases h3 : NodePath.asStrings rest with
      | none => rw [h3] at has; cases has
      | some t =>
        rw [h3] at has
        simp at has
        exact ⟨t, has.symm⟩
    obtain ⟨t, rfl⟩ := hss
    simp at hp
    rw [← hp]
    exact join_abs b t hb

end AbsoluteLemmas

/-- C6, counterexample: the re-exported `PathMix.join` is a public
operation and returns the relative path `a/b/c` without error, so not
every public operation returns an absolute path or fails. -/
theorem C6_counterexample :
    PathMix.join (strs [str "a", str "b", str "c"]) = Except.ok (str "a/b/c") ∧
    NodePath.isAbsolute (str "a/b/c") = false := by decide

/-- C6, amended: every path-producing base operation — `home`, `cwd`,
`tmp`, `dir`, `file`, `resolve`, `__dirname`, `__filename` — returns a
nonempty absolute path or fails with an explicit error, whenever the
environment supplies absolute base directories, caller detection only
reports absolute paths, and an explicit file-URL argument decodes to an
absolute path; the pass-through utilities such as `join` mirror node:path
and may return relative paths. -/
theorem C6_absolute_or_error (env : Env) (args : List JSVal)
    (hh : NodePath.isAbsolute env.homedir = true)
    (hcw : NodePath.isAbsolute env.cwd = true)
    (ht : NodePath.isAbsolute env.tmpdir = true)
    (hcaller : ∀ c, PathMix.getCallerFile env = some c → NodePath.isAbsolute c = true)
    (hurl : ∀ s rest, args = JSVal.str s :: rest → PathMix.isFileUrlStr s = true →
        NodePath.isAbsolute (NodePath.fileURLToPath s) = true) :
    absOk (PathMix.home env args) ∧ absOk (PathMix.cwd env args) ∧
    absOk (PathMix.tmp env args) ∧ absOk (PathMix.dir env args) ∧
    absOk (PathMix.file env args) ∧ absOk (PathMix.resolve env args) ∧
    absOk (PathMix.__dirname env args) ∧ absOk (PathMix.__filename env args) := by
  have hbase : ∀ b : Str, NodePath.isAbsolute b = true →
      absOk (if args = [] then Except.ok b else NodePath.joinV (JSVal.str b :: args)) := by
    intro b hb
    by_cases ha : args = []
    · rw [if_pos ha]
      intro p hp
      injection hp with hbp
      rw [← hbp]
      exact ⟨hb, isAbsolute_ne_nil b hb⟩
    · rw [if_neg ha]
      exact joinV_abs b hb args
  have hauto : ∀ a : List JSVal, absOk (PathMix.dirAuto env a) := by
    intro a
    cases hcf : PathMix.getCallerFile env with
    | none =>
      intro p hp
      simp [PathMix.dirAuto, hcf] at hp
    | some c =>
      have hd := dirname_abs c (hcaller c hcf)
      by_cases ha : a = []
      · intro p hp
        simp [PathMix.dirAuto, hcf, ha] at hp
        rw [← hp]
        exact hd
      · intro p hp
        simp [PathMix.dirAuto, hcf, ha] at hp
        exact joinV_abs _ hd.1 a p hp
  have hfileauto : absOk (PathMix.fileAuto env) := by
    cases hcf : PathMix.getCallerFile env with
    | none =>
      intro p hp
      simp [PathMix.fileAuto, hcf] at hp
    | some c =>
      intro p hp
      simp [PathMix.fileAuto, hcf] at hp
      rw [← hp]
      exact ⟨hcaller c hcf, isAbsolute_ne_nil c (hcaller c hcf)⟩
  have hdDirAuto : absOk (PathMix.dunderDirnameAuto env) := by
    cases hcf : PathMix.getCallerFile env with
    | none =>
      intro p hp
      simp [PathMix.dunderDirnameAuto, hcf] at hp
    | some c =>
      intro p hp
      simp [PathMix.dunderDirnameAuto, hcf] at hp
      rw [← hp]
      exact dirname_abs c (hcaller c hcf)
  have hdFileAuto : absOk (PathMix.dunderFilenameAuto env) := by
    cases hcf : PathMix.getCallerFile env with
    | none =>
      intro p hp
      simp [PathMix.dunderFilenameAuto, hcf] at hp
    | some c =>
      intro p hp
      simp [PathMix.dunderFilenameAuto, hcf] at hp
      rw [← hp]
      exact ⟨hcaller c hcf, isAbsolute_ne_nil c (hcaller c hcf)⟩
  refine ⟨hbase env.homedir hh, hbase env.cwd hcw, hbase env.tmpdir ht, ?_, ?_,
    resolveV_abs env.cwd hcw (args.map (PathMix.expandTokens env)), ?_, ?_⟩
  · -- dir
    cases args with
    | nil => exact hauto []
    | cons v rest =>
      cases v with
      | str s =>
        by_cases hu : PathMix.isFileUrlStr s = true
        · have hd := dirname_abs _ (hurl s rest rfl hu)
          by_cases hr : rest = []
          · intro p hp
            simp [PathMix.dir, hu, hr] at hp
            rw [← hp]
            exact hd
          · intro p hp
            simp [PathMix.dir, hu, hr] at hp
            exact joinV_abs _ hd.1 rest p hp
        · have heq : PathMix.dir env (JSVal.str s :: rest)
              = PathMix.dirAuto env (JSVal.str s :: rest) := by
            simp [PathMix.dir, hu]
          rw [heq]
          exact hauto _
      | num n => exact hauto _
      | boolean b => exact hauto _
      | nullV => exact hauto _
      | undefined => exact hauto _
  · -- file
    cases args with
    | nil => exact hfileauto
    | cons v rest =>
      cases v with
      | str s =>
        by_cases hu : PathMix.isFileUrlStr s = true
        · intro p hp
          simp [PathMix.file, hu] at hp
          rw [← hp]
          exact ⟨hurl s rest rfl hu, isAbsolute_ne_nil _ (hurl s rest rfl hu)⟩
        · have heq : PathMix.file env (JSVal.str s :: rest) = PathMix.fileAuto env := by
            simp [PathMix.file, hu]
          rw [heq]
          exact hfileauto
      | num n => exact hfileauto
      | boolean b => exact hfileauto
      | nullV => exact hfileauto
      | undefined => exact hfileauto
  · -- __dirname
    cases args with
    | nil => exact hdDirAuto
    | cons v rest =>
      cases v with
      | str s =>
        by_cases hu : PathMix.isFileUrlStr s = true
        · intro p hp
          simp [PathMix.__dirname, hu] at hp
          rw [← hp]
          exact dirname_abs _ (hurl s rest rfl hu)
        · have heq : PathMix.__dirname env (JSVal.str s :: rest)
              = PathMix.dunderDirnameAuto env := by
            simp [PathMix.__dirname, hu]
          rw [heq]
          exact hdDirAuto
      | num n => exact hdDirAuto
      | boolean b => exact hdDirAuto
      | nullV => exact hdDirAuto
      | undefined => exact hdDirAuto
  · -- __filename
    cases args with
    | nil => exact hdFileAuto
    | cons v rest =>
      cases v with
      | str s =>
        by_cases hu : PathMix.isFileUrlStr s = true
        · intro p hp
          simp [PathMix.__filename, hu] at hp
          rw [← hp]
          exact ⟨hurl s rest rfl hu, isAbsolute_ne_nil _ (hurl s rest rfl hu)⟩
        · have heq : PathMix.__filename env (JSVal.str s :: rest)
              = PathMix.dunderFilenameAuto env := by
            simp [PathMix.__filename, hu]
          rw [heq]
          exact hdFileAuto
      | num n => exact hdFileAuto
      | boolean b => exact hdFileAuto
      | nullV => exact hdFileAuto
      | undefined => exact hdFileAuto

/-- C6, witness: the amended invariant at a concrete environment and an
argument-free call. -/
theorem C6_absolute_or_error_witness :
    NodePath.isAbsolute envA.homedir = true ∧
    NodePath.isAbsolute envA.cwd = true ∧
    NodePath.isAbsolute envA.tmpdir = true ∧
    (∀ c, PathMix.getCallerFile envA = some c → NodePath.isAbsolute c = true) ∧
    (∀ s rest, ([] : List JSVal) = JSVal.str s :: rest → PathMix.isFileUrlStr s = true →
        NodePath.isAbsolute (NodePath.fileURLToPath s) = true) ∧
    (absOk (PathMix.home envA []) ∧ absOk (PathMix.cwd envA []) ∧
      absOk (PathMix.tmp envA []) ∧ absOk (PathMix.dir envA []) ∧
      absOk (PathMix.file envA []) ∧ absOk (PathMix.resolve envA []) ∧
      absOk (PathMix.__dirname envA []) ∧ absOk (PathMix.__filename envA [])) := by
  have hcaller : ∀ c, PathMix.getCallerFile envA = some c → NodePath.isAbsolute c = true := by
    intro c hc
    rw [show PathMix.getCallerFile envA = some (str "/app/main.js") by decide] at hc
    injection hc with hc2
    rw [← hc2]
    decide
  have hurl0 : ∀ (s : Str) (rest : List JSVal), ([] : List JSVal) = JSVal.str s :: rest →
      PathMix.isFileUrlStr s = true → NodePath.isAbsolute (NodePath.fileURLToPath s) = true :=
    fun _ _ h => nomatch h
  exact ⟨by decide, by decide, by decide, hcaller, hurl0,
    C6_absolute_or_error envA [] (by decide) (by decide) (by decide) hcaller hurl0⟩
